import Mathlib

/-!
Verification of the multi-backend employee-record manager
(SystemDataIntegration): a shallow embedding of the Record CRUD contract,
its four backend adapters (Firebase realtime store, Google Apps Script
spreadsheet backend and its client-side mock, Neon REST adapter, Appwrite
document adapter) and the screen coordinator with its cancel-token based
last-request-wins policy, together with proofs and refutations of the
stated behavioural properties.
-/

/-! ## JavaScript string primitives

The adapters manipulate JavaScript strings: lowercase conversion,
`trim`, `charAt`, `substring`, `indexOf` and substring containment.
These are embedded over `String.data` (the underlying character list).
-/

/-- JavaScript `toLowerCase`, embedded as a character-wise lowercase map. -/
def jsLower (s : String) : String := String.mk (s.data.map Char.toLower)

/-- JavaScript `a || b` on strings: the empty string is falsy. -/
def jsOrStr (a b : String) : String := if a = "" then b else a

/-- JavaScript `a || b` on numbers restricted to naturals: `0` is falsy. -/
def jsOrNat (a b : Nat) : Nat := if a = 0 then b else a

/-- Characters removed by JavaScript `trim` (the whitespace subset relevant here). -/
def isJsSpace (c : Char) : Bool := c = ' ' ∨ c = '\t' ∨ c = '\n' ∨ c = '\r'

/-- JavaScript `String.prototype.trim`. -/
def jsTrim (s : String) : String :=
  String.mk (((s.data.dropWhile isJsSpace).reverse.dropWhile isJsSpace).reverse)

/-- JavaScript `charAt`: a one-character string, or the empty string out of range. -/
def jsCharAt (s : String) (i : Nat) : String :=
  match s.data.drop i with
  | [] => ""
  | c :: _ => String.mk [c]

/-- JavaScript `substring(a, b)`: clamps both indices to the length and swaps
them when `a > b`. -/
def jsSubstring (s : String) (a b : Nat) : String :=
  let n := s.data.length
  let a' := min a n
  let b' := min b n
  let lo := min a' b'
  let hi := max a' b'
  String.mk ((s.data.drop lo).take (hi - lo))

/-- Index of the first occurrence of `needle` in `hay` (JavaScript `indexOf`,
with `none` for `-1`). -/
def firstIdx [DecidableEq α] : List α → List α → Option Nat
  | needle, [] => if needle.isEmpty then some 0 else none
  | needle, h :: t =>
    if needle.isPrefixOf (h :: t) then some 0 else (firstIdx needle t).map (· + 1)

/-- Substring containment on character lists, by direct recursion. -/
def listIsSub [DecidableEq α] : List α → List α → Bool
  | needle, [] => needle.isEmpty
  | needle, h :: t => needle.isPrefixOf (h :: t) || listIsSub needle t

/-- JavaScript `hay.indexOf(needle)` on strings. -/
def jsFirstIndexOf (needle hay : String) : Option Nat := firstIdx needle.data hay.data

/-- JavaScript `hay.includes(needle)` (used for the client-side contains filters). -/
def jsIncludes (hay needle : String) : Bool := (jsFirstIndexOf needle hay).isSome

/-! ## The Record contract (src/models/record.model.ts) -/

/-- The canonical employee record exchanged between the UI and the adapters. -/
structure Record where
  id : Nat
  name : String
  email : String
  phone : String
  department : String
  position : String
  profile_image : String := ""
  status : Nat := 0
  created_at : String := ""
  updated_at : String := ""
deriving DecidableEq, Repr

/-- The create and update payload shape `Omit<Record, 'id'>`. -/
structure RecordData where
  name : String
  email : String
  phone : String
  department : String
  position : String
  profile_image : String := ""
  status : Nat := 0
  created_at : String := ""
  updated_at : String := ""
deriving DecidableEq, Repr

/-- A record assembled from an id and a data payload with no field rewritten:
the JavaScript object `\x7b id, ...data \x7d`. -/
def mkRecordPlain (id : Nat) (d : RecordData) : Record :=
  { id := id, name := d.name, email := d.email, phone := d.phone,
    department := d.department, position := d.position,
    profile_image := d.profile_image, status := d.status,
    created_at := d.created_at, updated_at := d.updated_at }

/-- The partial update shape `Partial<Omit<Record, 'id'>>`. -/
structure RecordPatch where
  name : Option String := none
  email : Option String := none
  phone : Option String := none
  department : Option String := none
  position : Option String := none
  profile_image : Option String := none
  status : Option Nat := none
  created_at : Option String := none
  updated_at : Option String := none
deriving DecidableEq, Repr

/-- Field-wise merge of a patch into a record (the realtime store `update`). -/
def applyPatch (r : Record) (p : RecordPatch) : Record :=
  { r with
    name := p.name.getD r.name,
    email := p.email.getD r.email,
    phone := p.phone.getD r.phone,
    department := p.department.getD r.department,
    position := p.position.getD r.position,
    profile_image := p.profile_image.getD r.profile_image,
    status := p.status.getD r.status,
    created_at := p.created_at.getD r.created_at,
    updated_at := p.updated_at.getD r.updated_at }

/-- The error taxonomy surfaced by the adapters. -/
inductive SvcError where
  | notFound (id : Nat)
  | msg (s : String)
deriving DecidableEq, Repr

/-- The match modes of `enums/query-type.enum.ts`. -/
inductive QUERY_TYPE where
  | EXACT
  | CONTAINS
deriving DecidableEq, Repr

/-- `constants/default.constant.ts`. -/
def DEFAULT_QUERY_TYPE : QUERY_TYPE := QUERY_TYPE.CONTAINS

/-! ## Firebase realtime-database service (src/services/firebaseService.ts)

The collection is a map from numeric child keys to record values, embedded
as an association list in key order.
-/

namespace FirebaseService

/-- The records collection: child key paired with the stored record. -/
abbrev Store := List (Nat × Record)

/-- Reading the child at a key (`get(ref(db, path/id))`). -/
def getChild : Store → Nat → Option Record
  | [], _ => none
  | (k, r) :: t, k' => if k = k' then some r else getChild t k'

/-- Writing the child at a key (`set(ref(db, path/id), value)`): replaces an
existing binding, otherwise adds one. -/
def setChild : Store → Nat → Record → Store
  | [], k, r => [(k, r)]
  | (k', r') :: t, k, r => if k' = k then (k, r) :: t else (k', r') :: setChild t k r

/-- Removing the child at a key (`remove(ref(db, path/id))`). -/
def removeChild (s : Store) (k : Nat) : Store := s.filter (fun p => !(p.1 = k : Bool))

/-- The child keys of the store. -/
def keys (s : Store) : List Nat := s.map Prod.fst

/-- `getAllRecords`: iterates the snapshot children and collects their values. -/
def getAllRecords (s : Store) : List Record := s.map Prod.snd

/-- `Math.max(...records.map(r => r.id))`, as a fold from `0` (all ids are
naturals, so the fold agrees with the maximum on nonempty lists). -/
def maxId (records : List Record) : Nat :=
  records.foldl (fun a r => max a r.id) 0

/-- `getNextId`: `1` on an empty store, otherwise the maximal id plus one. -/
def getNextId (s : Store) : Nat :=
  let records := getAllRecords s
  if records.length = 0 then 1 else maxId records + 1

/-- `createRecord`: assigns `getNextId`, forces `status := 1`
(the literal is `\x7b id: nextId, ...record, status: 1 \x7d`), and stores the
record under its id as child key. Returns the new store and the new record. -/
def createRecord (s : Store) (record : RecordData) : Store × Record :=
  let nextId := getNextId s
  let newRecord : Record := { mkRecordPlain nextId record with status := 1 }
  (setChild s nextId newRecord, newRecord)

/-- `getRecordById`. -/
def getRecordById (s : Store) (id : Nat) : Option Record := getChild s id

/-- `updateRecord`: fails when the child is absent, otherwise merges the
patch and returns the updated store and record. -/
def updateRecord (s : Store) (id : Nat) (updates : RecordPatch) :
    Except SvcError (Store × Record) :=
  match getChild s id with
  | none => Except.error (SvcError.notFound id)
  | some r =>
    let r' := applyPatch r updates
    Except.ok (setChild s id r', r')

/-- `deleteRecord`: fails when the child is absent, otherwise removes it. -/
def deleteRecord (s : Store) (id : Nat) : Except SvcError Store :=
  match getChild s id with
  | none => Except.error (SvcError.notFound id)
  | some _ => Except.ok (removeChild s id)

/-- `searchRecords`: exact mode uses the native indexed `equalTo` query
(value equality on the ordered child, case sensitive); contains mode fetches
all records and filters client side on
`String(record[field] || '').toLowerCase().includes(value.toLowerCase())`. -/
def searchRecords (s : Store) (field : Record → String) (value : String)
    (matchType : QUERY_TYPE) : List Record :=
  match matchType with
  | QUERY_TYPE.EXACT =>
    (getAllRecords s).filter (fun r => decide (field r = value))
  | QUERY_TYPE.CONTAINS =>
    let lowerCaseValue := jsLower value
    (getAllRecords s).filter
      (fun r => jsIncludes (jsLower (jsOrStr (field r) "")) lowerCaseValue)

/-- All child keys bind a record carrying that key as its id (every state
reachable through the service operations satisfies this). -/
def WellKeyed (s : Store) : Prop := ∀ p ∈ s, p.1 = p.2.id

/-- A create or delete operation issued against the service. -/
inductive Op where
  | create (d : RecordData)
  | del (id : Nat)
deriving Repr

/-- One operation applied to the store; a delete of an absent id throws and
leaves the store unchanged. -/
def applyOp (s : Store) : Op → Store
  | Op.create d => (createRecord s d).1
  | Op.del id =>
    match deleteRecord s id with
    | Except.error _ => s
    | Except.ok s' => s'

/-- A whole operation sequence run from the empty store. -/
def runOps (ops : List Op) : Store := ops.foldl applyOp []

end FirebaseService

/-! ## Google Apps Script spreadsheet backend (google-apps-script.js)

The sheet rows below the header are embedded as the list of records they
decode to; `searchRecordsByQuery` is the pattern-matching search dispatched
by the `search` action.
-/

namespace AppsScript

/-- The match kinds recognised by `searchRecordsByQuery`. -/
inductive MatchKind where
  | exactKind
  | containsKind
  | startsWithKind
  | endsWithKind
deriving DecidableEq, Repr

/-- Pattern classification of the (already lowercased) search value:
`%v%` is contains, `%v` is ends-with, `v%` is starts-with, otherwise exact;
the percent signs are stripped with JavaScript `substring`. -/
def parseSearchValue (sv : String) : MatchKind × String :=
  let n := sv.data.length
  if jsCharAt sv 0 = "%" ∧ jsCharAt sv (n - 1) = "%" then
    (MatchKind.containsKind, jsSubstring sv 1 (n - 1))
  else if jsCharAt sv 0 = "%" then
    (MatchKind.endsWithKind, jsSubstring sv 1 n)
  else if jsCharAt sv (n - 1) = "%" then
    (MatchKind.startsWithKind, jsSubstring sv 0 (n - 1))
  else
    (MatchKind.exactKind, sv)

/-- The per-row match test on the lowercased field value, via `indexOf`
exactly as the script computes it. -/
def isMatch (kind : MatchKind) (actual fieldValue : String) : Bool :=
  match kind with
  | MatchKind.exactKind => decide (fieldValue = actual)
  | MatchKind.containsKind => (jsFirstIndexOf actual fieldValue).isSome
  | MatchKind.startsWithKind => decide (jsFirstIndexOf actual fieldValue = some 0)
  | MatchKind.endsWithKind =>
    if fieldValue.data.length < actual.data.length then false
    else decide (jsFirstIndexOf actual fieldValue
      = some (fieldValue.data.length - actual.data.length))

/-- `searchRecordsByQuery` on the decoded rows: lowercases the search value,
classifies the pattern, and filters the rows on the lowercased field. -/
def searchRecordsByQuery (rows : List Record) (field : Record → String)
    (searchValue : String) : List Record :=
  rows.filter (fun r => isMatch (parseSearchValue (jsLower searchValue)).1
    (parseSearchValue (jsLower searchValue)).2 (jsLower (field r)))

/-- The `contains` wire pattern `%query%` built around a query. -/
def containsPattern (q : String) : String := String.mk ('%' :: (q.data ++ ['%']))

/-- The stored `status` cell on create: `record[statusCol] || 0`
(`convertToRow` defaults a falsy status to `0` and never forces `1`). -/
def storedStatus (s : Nat) : Nat := jsOrNat s 0

/-- `generateId`: one more than the last data row id
(`(data[len - 1][idCol] || 0) + 1`), or `1` when only the header exists.
The sheet is embedded as the list of data rows below the header. -/
def generateId (rows : List Record) : Nat :=
  match rows.getLast? with
  | none => 1
  | some r => jsOrNat r.id 0 + 1

/-- `convertToRow` applied to a create or update payload: keeps the given
id, keeps every supplied string field (`v || ''`), defaults a falsy status
to `0` and falsy timestamps to the current ISO time. -/
def convertToRow (id : Nat) (record : RecordData) (nowIso : String) : Record :=
  { id := id,
    name := record.name, email := record.email, phone := record.phone,
    department := record.department, position := record.position,
    profile_image := record.profile_image,
    status := jsOrNat record.status 0,
    created_at := jsOrStr record.created_at nowIso,
    updated_at := jsOrStr record.updated_at nowIso }

/-- `createRecord`: `sheet.appendRow` of the row built by `convertToRow`
under the id from `generateId`. -/
def createRecord (rows : List Record) (recordData : RecordData) (nowIso : String) :
    List Record × Record :=
  let newRecord := convertToRow (generateId rows) recordData nowIso
  (rows ++ [newRecord], newRecord)

/-- `deleteRecord`: linear scan for the first row carrying the id and
`sheet.deleteRow` on it; a miss reports the not-found error. -/
def deleteRecord : List Record → Nat → Except SvcError (List Record)
  | [], _ => Except.error (SvcError.msg "Record not found")
  | r :: t, id =>
    if r.id = id then Except.ok t
    else
      match deleteRecord t id with
      | Except.error e => Except.error e
      | Except.ok t' => Except.ok (r :: t')

/-- Body of a script response as the client reads it
(models/google-sheet.model.ts). -/
structure APIResponse where
  record : Option Record := none
  error : Option String := none
deriving DecidableEq, Repr

/-- The row-replacement scan of the script `updateRecord`. -/
def updateRecordAux : List Record → Nat → Record → Option (List Record)
  | [], _, _ => none
  | r :: t, id, upd =>
    if r.id = id then some (upd :: t)
    else (updateRecordAux t id upd).map (fun t' => r :: t')

/-- `updateRecord`: linear scan for the row with the id; when found the row
is overwritten with `convertToRow` of the payload and returned in the
response, otherwise the sheet is unchanged and the response carries the
not-found error string. -/
def updateRecord (rows : List Record) (id : Nat) (recordData : RecordData)
    (nowIso : String) : List Record × APIResponse :=
  match updateRecordAux rows id (convertToRow id recordData nowIso) with
  | some rows' => (rows', { record := some (convertToRow id recordData nowIso) })
  | none => (rows, { error := some "Record not found" })

/-- A create or delete request handled by the script. -/
inductive Op where
  | create (d : RecordData) (nowIso : String)
  | del (id : Nat)
deriving Repr

/-- One request applied to the sheet; a failed delete leaves it unchanged. -/
def applyOp (rows : List Record) : Op → List Record
  | Op.create d nowIso => (createRecord rows d nowIso).1
  | Op.del id =>
    match deleteRecord rows id with
    | Except.error _ => rows
    | Except.ok rows' => rows'

/-- A request sequence run against an initially empty sheet. -/
def runOps (ops : List Op) : List Record := ops.foldl applyOp []

end AppsScript

/-! ## Google Sheets client service (src/services/googleSheetsAPI.ts)

In mock mode (no endpoint configured) the service keeps an in-memory array
`mockData`. Array identity matters for the frame claims, so the mock state
carries an arena of arrays addressed by reference index, with `mockRef`
pointing at `this.mockData`.
-/

namespace GoogleSheetsAPIService

/-- The mock records installed by the constructor. -/
def initialMockData : List Record :=
  [ { id := 1, name := "John Doe", email := "john.doe@company.com",
      phone := "+1-555-0123", department := "Engineering",
      position := "Senior Developer" },
    { id := 2, name := "Jane Smith", email := "jane.smith@company.com",
      phone := "+1-555-0124", department := "Marketing",
      position := "Marketing Manager" },
    { id := 3, name := "Mike Johnson", email := "mike.johnson@company.com",
      phone := "+1-555-0125", department := "Sales",
      position := "Sales Representative" },
    { id := 4, name := "Sarah Wilson", email := "sarah.wilson@company.com",
      phone := "+1-555-0126", department := "HR",
      position := "HR Specialist" },
    { id := 5, name := "David Brown", email := "david.brown@company.com",
      phone := "+1-555-0127", department := "Finance",
      position := "Financial Analyst" } ]

/-- Heap of arrays; an array reference is an index into the arena. -/
structure MockState where
  arrays : List (List Record)
  mockRef : Nat
deriving DecidableEq, Repr

/-- Dereference an array. -/
def heapGet (h : List (List Record)) (r : Nat) : List Record := h.getD r []

/-- The state the constructor builds in mock mode. -/
def mkMockService : MockState := { arrays := [initialMockData], mockRef := 0 }

/-- Mock `getAllRecords`: returns `[...this.mockData]`, a freshly allocated
array holding a copy of the mock data; the new reference is returned. -/
def getAllRecordsMock (s : MockState) : MockState × Nat :=
  let copy := heapGet s.arrays s.mockRef
  ({ s with arrays := s.arrays ++ [copy] }, s.arrays.length)

/-- In-place mutation of the array behind a reference (what a caller does
when it pushes to or splices the returned array). -/
def mutateArray (s : MockState) (r : Nat) (f : List Record → List Record) : MockState :=
  { s with arrays := s.arrays.set r (f (heapGet s.arrays r)) }

/-- Whether the mock data contains a record with the given id. -/
def hasId (l : List Record) (id : Nat) : Bool := l.any (fun r => r.id = id)

/-- Mock `createRecord`: pushes `\x7b id: generateId(), ...recordData \x7d`;
the generated id is nondeterministic (`Date.now() + Math.random()`), so it
is passed as a parameter. All supplied fields are kept as supplied. -/
def createRecordMock (l : List Record) (newId : Nat) (recordData : RecordData) :
    List Record × Record :=
  let newRecord := mkRecordPlain newId recordData
  (l ++ [newRecord], newRecord)

/-- Mock `getRecord`: first record with the id, else a not-found error. -/
def getRecordMock (l : List Record) (id : Nat) : Except SvcError Record :=
  match l.find? (fun r => decide (r.id = id)) with
  | some r => Except.ok r
  | none => Except.error (SvcError.msg "Record not found")

/-- Mock `updateRecord`: locates the first record with the id
(`findIndex`), throws when absent, otherwise replaces the indexed entry by
`\x7b ...old, ...recordData \x7d` (every non-id field overwritten). -/
def updateRecordMock : List Record → Nat → RecordData →
    Except SvcError (List Record × Record)
  | [], _, _ => Except.error (SvcError.msg "Record not found")
  | r :: t, id, recordData =>
    if r.id = id then
      let r' := mkRecordPlain r.id recordData
      Except.ok (r' :: t, r')
    else
      match updateRecordMock t id recordData with
      | Except.error e => Except.error e
      | Except.ok (t', u) => Except.ok (r :: t', u)

/-- The non-mock `updateRecord` surface given the script response: a set
error field, or a missing record, throws inside the try, and the catch
re-wraps every failure as the generic update message. -/
def updateRecordViaScript (result : AppsScript.APIResponse) : Except SvcError Record :=
  match result.error with
  | some _ => Except.error (SvcError.msg "Failed to update record in Google Sheets")
  | none =>
    match result.record with
    | some r => Except.ok r
    | none => Except.error (SvcError.msg "Failed to update record in Google Sheets")

end GoogleSheetsAPIService

/-! ## Neon REST adapter (src/services/neonAPI.ts)

Token cache, the single silent refresh-and-retry on a 401, and the update
path. Network interactions are passed in as explicit oracle values: the
auth endpoint response for each auth call that may happen, and the result
of each request attempt.
-/

namespace NeonAPIService

/-- The token cache fields of the service instance. -/
structure AuthState where
  currentAccessToken : Option String
  tokenExpiresAt : Nat
deriving DecidableEq, Repr

/-- Body of a successful auth endpoint response; `access_token := none`
also models a missing or empty (falsy) token field. -/
structure NeonAuthResponse where
  access_token : Option String
  expires_at_millis : Option Nat
deriving DecidableEq, Repr

/-- One network result of the auth POST: `none` is a transport failure. -/
abbrev AuthResult := Option NeonAuthResponse

/-- The five-minute early-expiry buffer on the cached token. -/
def TOKEN_BUFFER_MS : Nat := 5 * 60 * 1000

/-- The uncached path of `getAccessToken`: one auth POST; any failure or a
falsy token throws the auth failure message, a token updates the cache with
`now + expires_at_millis` (or one hour). Returns the thrown-or-returned
token, the new cache state, and the number of auth network calls (always 1). -/
def getFreshToken (st : AuthState) (now : Nat) (auth : AuthResult) :
    Except String String × AuthState × Nat :=
  match auth with
  | none => (Except.error "Failed to authenticate with NEON API", st, 1)
  | some resp =>
    match resp.access_token with
    | none => (Except.error "Failed to authenticate with NEON API", st, 1)
    | some tok =>
      let expiresAt :=
        match resp.expires_at_millis with
        | some e => now + e
        | none => now + 3600 * 1000
      (Except.ok tok, { currentAccessToken := some tok, tokenExpiresAt := expiresAt }, 1)

/-- `getAccessToken`: returns the cached token while it is more than the
buffer away from expiry, otherwise performs the auth POST. -/
def getAccessToken (st : AuthState) (now : Nat) (auth : AuthResult) :
    Except String String × AuthState × Nat :=
  match st.currentAccessToken with
  | some tok =>
    if st.tokenExpiresAt > now + TOKEN_BUFFER_MS then (Except.ok tok, st, 0)
    else getFreshToken st now auth
  | none => getFreshToken st now auth

/-- One settlement of an HTTP request attempt. -/
inductive ReqResult (α : Type) where
  | ok (d : α)
  | canceled
  | status401
  | otherErr (m : String)
deriving DecidableEq, Repr

/-- What `makeAuthenticatedRequest` ends in. -/
inductive CallOutcome (α : Type) where
  | ok (d : α)
  | canceled
  | authFailed (m : String)
  | wrappedFailure (m : String)
  | retryRejected (r : ReqResult α)
deriving DecidableEq, Repr

/-- Whether an outcome is the auth failure thrown by `getAccessToken`. -/
def isAuthFailed : CallOutcome α → Bool
  | CallOutcome.authFailed _ => true
  | _ => false

/-- Full account of one `makeAuthenticatedRequest` call. -/
structure CallTrace (α : Type) where
  outcome : CallOutcome α
  authNetworkCalls : Nat
  requestAttempts : Nat
  finalState : AuthState
deriving DecidableEq, Repr

/-- `makeAuthenticatedRequest`: acquire a token; try the request; a
cancellation is rethrown; a non-401 failure is wrapped; a 401 clears the
cache, refreshes the token once and retries the request exactly once, the
retry running outside any try so its rejection propagates raw. -/
def makeAuthenticatedRequest (st : AuthState) (now : Nat)
    (auth1 : AuthResult) (att1 : ReqResult α)
    (auth2 : AuthResult) (att2 : ReqResult α) : CallTrace α :=
  match getAccessToken st now auth1 with
  | (Except.error m, st1, a1) =>
    { outcome := CallOutcome.authFailed m, authNetworkCalls := a1,
      requestAttempts := 0, finalState := st1 }
  | (Except.ok _, st1, a1) =>
    match att1 with
    | ReqResult.ok d =>
      { outcome := CallOutcome.ok d, authNetworkCalls := a1,
        requestAttempts := 1, finalState := st1 }
    | ReqResult.canceled =>
      { outcome := CallOutcome.canceled, authNetworkCalls := a1,
        requestAttempts := 1, finalState := st1 }
    | ReqResult.otherErr m =>
      { outcome := CallOutcome.wrappedFailure ("NEON API request failed: " ++ m),
        authNetworkCalls := a1, requestAttempts := 1, finalState := st1 }
    | ReqResult.status401 =>
      let cleared : AuthState := { currentAccessToken := none, tokenExpiresAt := 0 }
      match getAccessToken cleared now auth2 with
      | (Except.error m, st2, a2) =>
        { outcome := CallOutcome.authFailed m, authNetworkCalls := a1 + a2,
          requestAttempts := 1, finalState := st2 }
      | (Except.ok _, st2, a2) =>
        match att2 with
        | ReqResult.ok d =>
          { outcome := CallOutcome.ok d, authNetworkCalls := a1 + a2,
            requestAttempts := 2, finalState := st2 }
        | r =>
          { outcome := CallOutcome.retryRejected r, authNetworkCalls := a1 + a2,
            requestAttempts := 2, finalState := st2 }

/-- What a public CRUD method surfaces to its caller. -/
inductive Surface (α : Type) where
  | ok (d : α)
  | cancelErr
  | failMsg (m : String)
deriving DecidableEq, Repr

/-- The catch block of `getAllRecords`: a cancellation (raw or propagated
from the retry) is rethrown, any other failure becomes the generic fetch
failure message. -/
def getAllRecordsSurface (t : CallTrace (List Record)) : Surface (List Record) :=
  match t.outcome with
  | CallOutcome.ok d => Surface.ok d
  | CallOutcome.canceled => Surface.cancelErr
  | CallOutcome.retryRejected ReqResult.canceled => Surface.cancelErr
  | _ => Surface.failMsg "Failed to fetch employees from NEON Database"

/-- Body of a Neon data API response as the adapter reads it. -/
structure NeonAPIResponse where
  error : Option String := none
  data : Option Record := none
deriving DecidableEq, Repr

/-- `createRecord` request body: `\x7b ...employeeData, status: 1 \x7d`. -/
def createBody (employeeData : RecordData) : RecordData :=
  { employeeData with status := 1 }

/-- `updateRecord` given the backend response to the blind
`PATCH ?id=eq.\x7bid\x7d`: an error field fails generically, otherwise the
call succeeds with `\x7b id, ...employeeData, ...result.data \x7d` - no
existence check happens anywhere. -/
def updateRecord (id : Nat) (employeeData : RecordData)
    (result : NeonAPIResponse) : Except SvcError Record :=
  match result.error with
  | some _ => Except.error (SvcError.msg "Failed to update employee in NEON Database")
  | none =>
    match result.data with
    | some r => Except.ok r
    | none => Except.ok (mkRecordPlain id employeeData)

end NeonAPIService

/-! ## Appwrite document adapter (src/services/appwriteService.ts) -/

namespace AppwriteService

/-- `createRecord` id choice: `rows[rows.length - 1]?.id + 1 || 1`; the
document list is kept in insertion order. -/
def nextIdOf (rows : List Record) : Nat :=
  match rows.getLast? with
  | none => 1
  | some r => r.id + 1

/-- `createRecord`: appends a document holding
`\x7b ...data, id: nextId, status: 1 \x7d`. -/
def createRecord (rows : List Record) (data : RecordData) : List Record × Record :=
  let nextId := nextIdOf rows
  let doc : Record := { mkRecordPlain nextId data with status := 1 }
  (rows ++ [doc], doc)

/-- A create, or the backend removing one document (`deleteDocument`) at a
position in the listing order - whatever key the caller passed. -/
inductive Op where
  | create (d : RecordData)
  | del (docIdx : Nat)
deriving Repr

/-- One operation applied to the document list. -/
def applyOp (rows : List Record) : Op → List Record
  | Op.create d => (createRecord rows d).1
  | Op.del i => rows.eraseIdx i

/-- An operation sequence run against an initially empty collection. -/
def runOps (ops : List Op) : List Record := ops.foldl applyOp []

end AppwriteService

/-! ## Coordinator (src/App.tsx)

Event-based small-step model of the screen controller: one cancel-token
generation per issued list request, completions delivered one at a time (a
settled axios promise whose token was cancelled first rejects as `Cancel`
and is swallowed; a Firebase list call carries no token at all).
-/

namespace Coordinator

/-- The selectable backends of this screen (enums/api-type.enum.ts as used
by App.tsx). -/
inductive ApiType where
  | GOOGLE_SHEETS
  | NEON
  | FIREBASE
deriving DecidableEq, Repr

/-- Which adapter list calls receive the axios cancel token in
`loadRecords`: the Neon and Google Sheets calls do, the Firebase call
(`firebaseService.getAllRecords()`) does not. -/
def usesCancelToken : ApiType → Bool
  | ApiType.FIREBASE => false
  | _ => true

/-- An in-flight list request: its sequence number and the cancel token it
carries, if any. -/
structure PendingReq where
  reqId : Nat
  token : Option Nat
deriving DecidableEq, Repr

/-- Screen state relevant to the list/search coordination. -/
structure State where
  nextReq : Nat
  currentToken : Option Nat
  canceledTokens : List Nat
  pending : List PendingReq
  recordsFrom : Option Nat
  updateCount : Nat
  errorCount : Nat
  apiType : ApiType
deriving DecidableEq, Repr

/-- Initial screen state (`useState(ApiType.GOOGLE_SHEETS)`). -/
def init : State :=
  { nextReq := 0, currentToken := none, canceledTokens := [], pending := [],
    recordsFrom := none, updateCount := 0, errorCount := 0,
    apiType := ApiType.GOOGLE_SHEETS }

/-- `cancelTokenRef.current.cancel(...)` when a token is held. -/
def cancelCurrent (s : State) : State :=
  match s.currentToken with
  | some t => { s with canceledTokens := t :: s.canceledTokens }
  | none => s

/-- `loadRecords`: cancel any ongoing request, mint a fresh token, and fire
the list call for the requested adapter, attaching the token only when that
adapter call accepts one. -/
def loadRecords (s : State) (loadApiType : ApiType) : State :=
  let s1 := cancelCurrent s
  let tok := s1.nextReq
  { s1 with
    nextReq := tok + 1,
    currentToken := some tok,
    pending := s1.pending ++
      [{ reqId := tok, token := if usesCancelToken loadApiType then some tok else none }] }

/-- `onSetApiType`: on an actual switch, cancel the ongoing request, clear
the token ref, record the new adapter and reload. -/
def onSetApiType (s : State) (newApiType : ApiType) : State :=
  if s.apiType = newApiType then s
  else
    let s1 := { cancelCurrent s with currentToken := none, apiType := newApiType }
    loadRecords s1 newApiType

/-- Delivery of one pending request result: a request whose token was
cancelled rejects as `Cancel` and is swallowed without touching the record
list or the error banner; any other completion runs `setRecords`. -/
def completeRequest (s : State) (p : PendingReq) : State :=
  if p ∈ s.pending then
    let s1 := { s with pending := s.pending.erase p }
    match p.token with
    | some t =>
      if t ∈ s1.canceledTokens then s1
      else { s1 with recordsFrom := some p.reqId, updateCount := s1.updateCount + 1 }
    | none => { s1 with recordsFrom := some p.reqId, updateCount := s1.updateCount + 1 }
  else s

/-- The observable events of the coordination model. -/
inductive Event where
  | load (a : ApiType)
  | switchApi (a : ApiType)
  | complete (p : PendingReq)
deriving DecidableEq, Repr

/-- One step. -/
def step (s : State) : Event → State
  | Event.load a => loadRecords s a
  | Event.switchApi a => onSetApiType s a
  | Event.complete p => completeRequest s p

/-- A whole event trace from the initial screen state. -/
def run (events : List Event) : State := events.foldl step init

/-- What `searchEmployees` dispatches. -/
inductive SearchDispatch where
  | loadAllRecords
  | searchBackend (query : String)
deriving DecidableEq, Repr

/-- The guard of `searchEmployees`: an empty (trimmed) query or an empty
displayed record list reloads everything instead of searching. -/
def searchEmployees (name : String) (records : List Record) : SearchDispatch :=
  if jsTrim name = "" ∨ records.length = 0 then SearchDispatch.loadAllRecords
  else SearchDispatch.searchBackend (jsTrim name)

end Coordinator

/-! ## Specification-side search semantics (spec section 8)

Independent statements of the search contract, for comparison with the
embedded adapter code.
-/

/-- Case-insensitive substring containment, as the spec words it. -/
def ciContains (hay q : String) : Bool :=
  listIsSub (q.data.map Char.toLower) (hay.data.map Char.toLower)

/-- Case-insensitive equality, as the spec words it. -/
def ciEquals (a b : String) : Bool :=
  decide (a.data.map Char.toLower = b.data.map Char.toLower)

/-- The exact subset of records whose field case-insensitively contains the
query substring. -/
def specSearchContains (rs : List Record) (field : Record → String) (q : String) :
    List Record :=
  rs.filter (fun r => ciContains (field r) q)

/-- The exact subset of records whose field case-insensitively equals the
query. -/
def specSearchExact (rs : List Record) (field : Record → String) (q : String) :
    List Record :=
  rs.filter (fun r => ciEquals (field r) q)

/-! ## Concrete fixtures used in witnesses and counterexamples -/

/-- The `name` field selector. -/
def nameField (r : Record) : String := r.name

/-- A create payload with `status` supplied as `0` (the scenario of spec
section 8). -/
def sampleData : RecordData :=
  { name := "Jane Doe", email := "jane@x.com", phone := "555-1",
    department := "Eng", position := "Dev", status := 0 }

/-- A stored record whose name carries an uppercase letter. -/
def johnRecord : Record :=
  { id := 1, name := "John", email := "john.doe@company.com",
    phone := "+1-555-0123", department := "Engineering",
    position := "Senior Developer" }

/-- The status each backend persists when a create supplies `status = 0`:
Firebase, Neon request body, Appwrite, and the Apps Script sheet cell. -/
def statusesOnCreateZero : List Nat :=
  [ (FirebaseService.createRecord [] sampleData).2.status,
    (NeonAPIService.createBody sampleData).status,
    (AppwriteService.createRecord [] sampleData).2.status,
    AppsScript.storedStatus sampleData.status ]

/-! ## Helper lemmas -/

/-- The first-occurrence index is defined exactly when the needle occurs. -/
theorem firstIdx_isSome {α : Type} [DecidableEq α] (needle : List α) :
    ∀ hay : List α, (firstIdx needle hay).isSome = listIsSub needle hay := by
  intro hay
  induction hay with
  | nil => by_cases h : needle.isEmpty <;> simp [firstIdx, listIsSub, h]
  | cons x t ih =>
    by_cases hp : needle.isPrefixOf (x :: t)
    · simp [firstIdx, listIsSub, hp]
    · simp [firstIdx, listIsSub, hp, ih]

/-- The empty string is the neutral right operand of the falsy-or. -/
theorem jsOrStr_empty (s : String) : jsOrStr s "" = s := by
  by_cases h : s = "" <;> simp [jsOrStr, h]

/-- Two lowercased strings are equal exactly when their lowercased
character lists are. -/
theorem jsLower_eq_iff (a b : String) :
    jsLower a = jsLower b ↔ a.data.map Char.toLower = b.data.map Char.toLower := by
  simp [jsLower, String.ext_iff]

/-- `getD` ignores an appended tail below the length of the prefix. -/
theorem getD_append_lt {α : Type} (d : α) :
    ∀ (l t : List α) (i : Nat), i < l.length → (l ++ t).getD i d = l.getD i d := by
  intro l
  induction l with
  | nil => intro t i h; simp at h
  | cons x xs ih =>
    intro t i h
    cases i with
    | zero => rfl
    | succ j => simpa [List.getD] using ih t j (by simpa using h)

/-- `getD` at the length of the prefix reads the appended element. -/
theorem getD_append_length {α : Type} (d : α) :
    ∀ (l : List α) (x : α), (l ++ [x]).getD l.length d = x := by
  intro l
  induction l with
  | nil => intro x; rfl
  | cons y ys ih => intro x; exact ih x

/-- `getD` is unchanged by a `set` at a different index. -/
theorem getD_set_ne {α : Type} (d : α) :
    ∀ (l : List α) (j : Nat) (v : α) (i : Nat), i ≠ j →
      (l.set j v).getD i d = l.getD i d := by
  intro l
  induction l with
  | nil => intro j v i _; simp
  | cons x xs ih =>
    intro j v i hne
    cases j with
    | zero =>
      cases i with
      | zero => exact absurd rfl hne
      | succ k => rfl
    | succ j' =>
      cases i with
      | zero => rfl
      | succ k => simpa [List.getD] using ih j' v k (by omega)

/-! ## Firebase id-generation lemmas -/

/-- The fold accumulator never decreases. -/
theorem le_foldl_maxId :
    ∀ (t : List Record) (a : Nat), a ≤ t.foldl (fun acc r => max acc r.id) a := by
  intro t
  induction t with
  | nil => intro a; exact Nat.le_refl a
  | cons x xs ih =>
    intro a
    exact Nat.le_trans (Nat.le_max_left a x.id) (ih (max a x.id))

/-- Every member id is bounded by the fold. -/
theorem mem_le_foldl_maxId :
    ∀ (t : List Record) (a : Nat) (r : Record), r ∈ t →
      r.id ≤ t.foldl (fun acc r => max acc r.id) a := by
  intro t
  induction t with
  | nil => intro a r h; cases h
  | cons x xs ih =>
    intro a r h
    rcases List.mem_cons.1 h with he | hmem
    · subst he
      exact Nat.le_trans (Nat.le_max_right a r.id) (le_foldl_maxId xs (max a r.id))
    · exact ih (max a x.id) r hmem

/-- Every stored id is bounded by `maxId`. -/
theorem maxId_ge (rs : List Record) (r : Record) (h : r ∈ rs) :
    r.id ≤ FirebaseService.maxId rs :=
  mem_le_foldl_maxId rs 0 r h

/-- Every stored record id is strictly below `getNextId`. -/
theorem lt_getNextId (s : FirebaseService.Store) (p : Nat × Record) (h : p ∈ s) :
    p.2.id < FirebaseService.getNextId s := by
  have hmem : p.2 ∈ FirebaseService.getAllRecords s := List.mem_map_of_mem Prod.snd h
  have hne : (FirebaseService.getAllRecords s).length ≠ 0 := by
    intro hlen
    rw [List.length_eq_zero] at hlen
    rw [hlen] at hmem
    cases hmem
  unfold FirebaseService.getNextId
  simp only [hne, if_false]
  exact Nat.lt_succ_of_le (maxId_ge _ _ hmem)

/-- On a well-keyed store the next id is a fresh child key. -/
theorem getNextId_not_mem (s : FirebaseService.Store) (hw : FirebaseService.WellKeyed s) :
    FirebaseService.getNextId s ∉ FirebaseService.keys s := by
  intro hmem
  obtain ⟨p, hp, hk⟩ := List.mem_map.1 hmem
  have hlt := lt_getNextId s p hp
  rw [← hw p hp, hk] at hlt
  exact Nat.lt_irrefl _ hlt

/-- Setting a fresh child key appends the binding. -/
theorem setChild_of_not_mem :
    ∀ (s : FirebaseService.Store) (k : Nat) (r : Record),
      k ∉ FirebaseService.keys s → FirebaseService.setChild s k r = s ++ [(k, r)] := by
  intro s
  induction s with
  | nil => intro k r _; rfl
  | cons p t ih =>
    intro k r h
    have hk : ¬ p.1 = k := by
      intro he
      exact h (by simp [FirebaseService.keys, he])
    have ht : k ∉ FirebaseService.keys t := by
      intro hmem
      exact h (by simp [FirebaseService.keys] at hmem ⊢; exact Or.inr hmem)
    calc FirebaseService.setChild (p :: t) k r
        = p :: FirebaseService.setChild t k r := by
          cases p with
          | mk k' r' => simp [FirebaseService.setChild, hk]
      _ = p :: (t ++ [(k, r)]) := by rw [ih k r ht]

/-- `getChild` after `setChild` at the same key reads the written record. -/
theorem getChild_setChild_self :
    ∀ (s : FirebaseService.Store) (k : Nat) (r : Record),
      FirebaseService.getChild (FirebaseService.setChild s k r) k = some r := by
  intro s
  induction s with
  | nil => intro k r; simp [FirebaseService.setChild, FirebaseService.getChild]
  | cons p t ih =>
    intro k r
    by_cases hk : p.1 = k
    · cases p with
      | mk k' r' =>
        simp only at hk
        simp [FirebaseService.setChild, hk, FirebaseService.getChild]
    · cases p with
      | mk k' r' =>
        simp only at hk
        simp [FirebaseService.setChild, hk, FirebaseService.getChild, ih]

/-- `getChild` for a key bound in the prefix ignores an appended tail. -/
theorem getChild_append_of_mem :
    ∀ (s t : FirebaseService.Store) (k : Nat), k ∈ FirebaseService.keys s →
      FirebaseService.getChild (s ++ t) k = FirebaseService.getChild s k := by
  intro s
  induction s with
  | nil => intro t k h; cases h
  | cons p s0 ih =>
    intro t k h
    cases p with
    | mk k' r' =>
      by_cases hk : k' = k
      · simp [FirebaseService.getChild, hk]
      · have hmem : k ∈ FirebaseService.keys s0 := by
          simp [FirebaseService.keys] at h
          cases h with
          | inl he => exact absurd he.symm hk
          | inr hm => simpa [FirebaseService.keys] using hm
        simp [FirebaseService.getChild, hk, ih t k hmem]

/-- One service operation preserves key distinctness and well-keyedness. -/
theorem fb_applyOp_invariant (s : FirebaseService.Store) (op : FirebaseService.Op)
    (h1 : (FirebaseService.keys s).Nodup) (h2 : FirebaseService.WellKeyed s) :
    (FirebaseService.keys (FirebaseService.applyOp s op)).Nodup
    ∧ FirebaseService.WellKeyed (FirebaseService.applyOp s op) := by
  cases op with
  | create d =>
    have hfresh := getNextId_not_mem s h2
    have hset := setChild_of_not_mem s (FirebaseService.getNextId s)
      { mkRecordPlain (FirebaseService.getNextId s) d with status := 1 } hfresh
    have happ : FirebaseService.applyOp s (FirebaseService.Op.create d)
        = s ++ [(FirebaseService.getNextId s,
            { mkRecordPlain (FirebaseService.getNextId s) d with status := 1 })] := by
      show FirebaseService.setChild s _ _ = _
      exact hset
    rw [happ]
    constructor
    · have : FirebaseService.keys (s ++ [(FirebaseService.getNextId s,
          { mkRecordPlain (FirebaseService.getNextId s) d with status := 1 })])
          = FirebaseService.keys s ++ [FirebaseService.getNextId s] := by
        simp [FirebaseService.keys]
      rw [this]
      simp [List.nodup_append, h1, hfresh]
    · intro p hp
      rcases List.mem_append.1 hp with hmem | hmem
      · exact h2 p hmem
      · rcases List.mem_singleton.1 hmem with rfl
        rfl
  | del id =>
    cases hc : FirebaseService.getChild s id with
    | none =>
      have : FirebaseService.applyOp s (FirebaseService.Op.del id) = s := by
        simp [FirebaseService.applyOp, FirebaseService.deleteRecord, hc]
      rw [this]
      exact ⟨h1, h2⟩
    | some r =>
      have : FirebaseService.applyOp s (FirebaseService.Op.del id)
          = FirebaseService.removeChild s id := by
        simp [FirebaseService.applyOp, FirebaseService.deleteRecord, hc]
      rw [this]
      constructor
      · have hsub : (FirebaseService.keys (FirebaseService.removeChild s id)).Sublist
            (FirebaseService.keys s) :=
          List.Sublist.map Prod.fst (List.filter_sublist s)
        exact h1.sublist hsub
      · intro p hp
        exact h2 p (List.mem_of_mem_filter hp)

/-! ## Google Sheets mock lemmas -/

/-- A fresh id is not found in the prefix, so lookup after an append with a
matching record succeeds with that record. -/
theorem getRecordMock_append :
    ∀ (l : List Record) (id : Nat) (r : Record),
      GoogleSheetsAPIService.hasId l id = false → r.id = id →
      GoogleSheetsAPIService.getRecordMock (l ++ [r]) id = Except.ok r := by
  intro l
  induction l with
  | nil =>
    intro id r _ hr
    simp [GoogleSheetsAPIService.getRecordMock, List.find?, hr]
  | cons x t ih =>
    intro id r h hr
    have hx : ¬ x.id = id := by
      intro he
      simp [GoogleSheetsAPIService.hasId, he] at h
    have ht : GoogleSheetsAPIService.hasId t id = false := by
      simp [GoogleSheetsAPIService.hasId] at h ⊢
      intro a ha
      exact h.2 a ha
    have := ih id r ht hr
    simp [GoogleSheetsAPIService.getRecordMock, List.find?, hx] at this ⊢
    exact this

/-- The mock update walk fails on a list that never carries the id. -/
theorem updateRecordMock_not_found :
    ∀ (l : List Record) (id : Nat) (d : RecordData),
      GoogleSheetsAPIService.hasId l id = false →
      GoogleSheetsAPIService.updateRecordMock l id d
        = Except.error (SvcError.msg "Record not found") := by
  intro l
  induction l with
  | nil => intro id d _; rfl
  | cons x t ih =>
    intro id d h
    have hx : ¬ x.id = id := by
      intro he
      simp [GoogleSheetsAPIService.hasId, he] at h
    have ht : GoogleSheetsAPIService.hasId t id = false := by
      simp [GoogleSheetsAPIService.hasId] at h ⊢
      intro a ha
      exact h.2 a ha
    simp [GoogleSheetsAPIService.updateRecordMock, hx, ih id d ht]

/-- The falsy-or against zero followed by a successor is a plain successor. -/
theorem jsOrNat_add_one (x : Nat) : jsOrNat x 0 + 1 = x + 1 := by
  by_cases h : x = 0 <;> simp [jsOrNat, h]

/-- The script id generator and the Appwrite id choice compute the same
next id: one past the last row. -/
theorem generateId_eq_nextIdOf (rows : List Record) :
    AppsScript.generateId rows = AppwriteService.nextIdOf rows := by
  unfold AppsScript.generateId AppwriteService.nextIdOf
  cases h : rows.getLast? with
  | none => rfl
  | some r => simp [jsOrNat_add_one]

/-- On a list whose ids are strictly increasing in row order, every id is
strictly below one past the last. -/
theorem id_lt_nextIdOf :
    ∀ (rows : List Record), (rows.map Record.id).Pairwise (· < ·) →
      ∀ r ∈ rows, r.id < AppwriteService.nextIdOf rows := by
  intro rows
  induction rows with
  | nil => intro _ r hr; cases hr
  | cons a t ih =>
    intro h r hr
    cases t with
    | nil =>
      rcases List.mem_singleton.1 hr with rfl
      simp [AppwriteService.nextIdOf]
    | cons b t' =>
      have hnext : AppwriteService.nextIdOf (a :: b :: t')
          = AppwriteService.nextIdOf (b :: t') := by
        unfold AppwriteService.nextIdOf
        rw [List.getLast?_cons_cons]
      have hmap : (a :: b :: t').map Record.id = a.id :: (b :: t').map Record.id := rfl
      rw [hmap] at h
      rcases List.pairwise_cons.1 h with ⟨ha, h'⟩
      rw [hnext]
      rcases List.mem_cons.1 hr with rfl | hmem
      · have hb : r.id < b.id := ha b.id (by simp)
        exact Nat.lt_trans hb (ih h' b (List.mem_cons_self b t'))
      · exact ih h' r hmem

/-- Appending a record carrying one past the last id keeps the ids
strictly increasing. -/
theorem sorted_append_nextId (rows : List Record) (new : Record)
    (h : (rows.map Record.id).Pairwise (· < ·))
    (hnew : new.id = AppwriteService.nextIdOf rows) :
    ((rows ++ [new]).map Record.id).Pairwise (· < ·) := by
  rw [List.map_append]
  apply List.pairwise_append.mpr
  refine ⟨h, List.pairwise_singleton _ _, ?_⟩
  intro x hx y hy
  simp at hy
  subst hy
  rcases List.mem_map.1 hx with ⟨r, hr, rfl⟩
  rw [hnew]
  exact id_lt_nextIdOf rows h r hr

/-- A successful script delete removes one row: the result is a sublist. -/
theorem sheets_deleteRecord_sublist :
    ∀ (rows : List Record) (id : Nat) (rows' : List Record),
      AppsScript.deleteRecord rows id = Except.ok rows' → rows'.Sublist rows := by
  intro rows
  induction rows with
  | nil => intro id rows' h; simp [AppsScript.deleteRecord] at h
  | cons r t ih =>
    intro id rows' h
    by_cases hr : r.id = id
    · simp only [AppsScript.deleteRecord, if_pos hr] at h
      cases h
      exact List.sublist_cons_self r t
    · cases hdel : AppsScript.deleteRecord t id with
      | error e => simp [AppsScript.deleteRecord, if_neg hr, hdel] at h
      | ok t' =>
        simp only [AppsScript.deleteRecord, if_neg hr, hdel] at h
        cases h
        exact List.Sublist.cons₂ r (ih id t' hdel)

/-- One script request preserves strictly increasing ids. -/
theorem sheets_applyOp_sorted (rows : List Record) (op : AppsScript.Op)
    (h : (rows.map Record.id).Pairwise (· < ·)) :
    ((AppsScript.applyOp rows op).map Record.id).Pairwise (· < ·) := by
  cases op with
  | create d nowIso =>
    apply sorted_append_nextId rows _ h
    exact generateId_eq_nextIdOf rows
  | del id =>
    cases hdel : AppsScript.deleteRecord rows id with
    | error e => simpa [AppsScript.applyOp, hdel] using h
    | ok rows' =>
      have heq : AppsScript.applyOp rows (AppsScript.Op.del id) = rows' := by
        simp [AppsScript.applyOp, hdel]
      rw [heq]
      exact h.sublist ((sheets_deleteRecord_sublist rows id rows' hdel).map Record.id)

/-- One Appwrite operation preserves strictly increasing ids. -/
theorem aw_applyOp_sorted (rows : List Record) (op : AppwriteService.Op)
    (h : (rows.map Record.id).Pairwise (· < ·)) :
    ((AppwriteService.applyOp rows op).map Record.id).Pairwise (· < ·) := by
  cases op with
  | create d => exact sorted_append_nextId rows _ h rfl
  | del i => exact h.sublist ((List.eraseIdx_sublist rows i).map Record.id)

/-- The row scan of the script update misses every id the sheet lacks. -/
theorem updateRecordAux_not_found :
    ∀ (rows : List Record) (id : Nat) (upd : Record),
      GoogleSheetsAPIService.hasId rows id = false →
      AppsScript.updateRecordAux rows id upd = none := by
  intro rows
  induction rows with
  | nil => intro id upd _; rfl
  | cons r t ih =>
    intro id upd h
    have hr : ¬ r.id = id := by
      intro he
      simp [GoogleSheetsAPIService.hasId, he] at h
    have ht : GoogleSheetsAPIService.hasId t id = false := by
      simp [GoogleSheetsAPIService.hasId] at h ⊢
      intro a ha
      exact h.2 a ha
    simp [AppsScript.updateRecordAux, hr, ih id upd ht]

/-! ## Claim C3 -/

/-- Claim C3 counterexample: in each of the three id-generating backends
the second create is assigned id 2; deleting that record and creating
again assigns id 2 once more, so an id of a deleted record is reused:
Firebase (getNextId = max + 1), the Apps Script sheet (generateId = last
row id + 1) and Appwrite (nextId = last document id + 1). -/
theorem C3_id_reuse_after_delete :
    ((FirebaseService.createRecord
        (FirebaseService.runOps [FirebaseService.Op.create sampleData]) sampleData).2.id = 2
      ∧ FirebaseService.getChild
        (FirebaseService.runOps [FirebaseService.Op.create sampleData,
          FirebaseService.Op.create sampleData, FirebaseService.Op.del 2]) 2 = none
      ∧ (FirebaseService.createRecord
        (FirebaseService.runOps [FirebaseService.Op.create sampleData,
          FirebaseService.Op.create sampleData, FirebaseService.Op.del 2]) sampleData).2.id = 2)
    ∧ ((AppsScript.createRecord
        (AppsScript.runOps [AppsScript.Op.create sampleData ""]) sampleData "").2.id = 2
      ∧ (AppsScript.runOps [AppsScript.Op.create sampleData "",
          AppsScript.Op.create sampleData "", AppsScript.Op.del 2]).map Record.id = [1]
      ∧ (AppsScript.createRecord
        (AppsScript.runOps [AppsScript.Op.create sampleData "",
          AppsScript.Op.create sampleData "", AppsScript.Op.del 2]) sampleData "").2.id = 2)
    ∧ ((AppwriteService.createRecord
        (AppwriteService.runOps [AppwriteService.Op.create sampleData]) sampleData).2.id = 2
      ∧ (AppwriteService.runOps [AppwriteService.Op.create sampleData,
          AppwriteService.Op.create sampleData, AppwriteService.Op.del 1]).map Record.id = [1]
      ∧ (AppwriteService.createRecord
        (AppwriteService.runOps [AppwriteService.Op.create sampleData,
          AppwriteService.Op.create sampleData, AppwriteService.Op.del 1]) sampleData).2.id = 2) := by
  decide

/-- Claim C3 (amended): across every sequence of create and delete
operations, record ids stay unique within each backend storage at all
times - the Firebase child keys are pairwise distinct and well keyed, and
the ids of the Apps Script sheet rows and of the Appwrite documents are
strictly increasing in storage order, hence pairwise distinct; ids of
deleted records, however, can be reassigned by a later create. -/
theorem C3_ids_unique_invariant (opsF : List FirebaseService.Op)
    (opsS : List AppsScript.Op) (opsA : List AppwriteService.Op) :
    ((FirebaseService.keys (FirebaseService.runOps opsF)).Nodup
      ∧ FirebaseService.WellKeyed (FirebaseService.runOps opsF))
    ∧ (((AppsScript.runOps opsS).map Record.id).Pairwise (· < ·)
      ∧ ((AppsScript.runOps opsS).map Record.id).Nodup)
    ∧ (((AppwriteService.runOps opsA).map Record.id).Pairwise (· < ·)
      ∧ ((AppwriteService.runOps opsA).map Record.id).Nodup) := by
  refine ⟨?_, ?_, ?_⟩
  · suffices H : ∀ (s : FirebaseService.Store), (FirebaseService.keys s).Nodup →
        FirebaseService.WellKeyed s →
        (FirebaseService.keys (List.foldl FirebaseService.applyOp s opsF)).Nodup
        ∧ FirebaseService.WellKeyed (List.foldl FirebaseService.applyOp s opsF) by
      exact H [] (by simp [FirebaseService.keys]) (by intro p hp; cases hp)
    induction opsF with
    | nil => intro s h1 h2; exact ⟨h1, h2⟩
    | cons op rest ih =>
      intro s h1 h2
      have hstep := fb_applyOp_invariant s op h1 h2
      exact ih _ hstep.1 hstep.2
  · have H : ∀ (rows : List Record), (rows.map Record.id).Pairwise (· < ·) →
        ((List.foldl AppsScript.applyOp rows opsS).map Record.id).Pairwise (· < ·) := by
      induction opsS with
      | nil => intro rows h; exact h
      | cons op rest ih => intro rows h; exact ih _ (sheets_applyOp_sorted rows op h)
    have hp := H [] (by simp)
    exact ⟨hp, hp.imp (fun hl => Nat.ne_of_lt hl)⟩
  · have H : ∀ (rows : List Record), (rows.map Record.id).Pairwise (· < ·) →
        ((List.foldl AppwriteService.applyOp rows opsA).map Record.id).Pairwise (· < ·) := by
      induction opsA with
      | nil => intro rows h; exact h
      | cons op rest ih => intro rows h; exact ih _ (aw_applyOp_sorted rows op h)
    have hp := H [] (by simp)
    exact ⟨hp, hp.imp (fun hl => Nat.ne_of_lt hl)⟩

/-! ## Claim C8 -/

/-- Claim C8: for every well-keyed state of the Firebase store,
createRecord assigns id 1 on the empty store and otherwise one more than
the maximal id, so the assigned id is strictly greater than every stored
id; the create therefore overwrites no existing child, and distinct ids
stay distinct. -/
theorem C8_next_id_fresh (s : FirebaseService.Store) (d : RecordData)
    (hw : FirebaseService.WellKeyed s) :
    (∀ p ∈ s, p.2.id < FirebaseService.getNextId s)
    ∧ FirebaseService.getChild (FirebaseService.createRecord s d).1
        (FirebaseService.createRecord s d).2.id = some (FirebaseService.createRecord s d).2
    ∧ (∀ p ∈ s, FirebaseService.getChild (FirebaseService.createRecord s d).1 p.1
        = FirebaseService.getChild s p.1)
    ∧ ((FirebaseService.keys s).Nodup → (FirebaseService.keys (FirebaseService.createRecord s d).1).Nodup) := by
  have hfresh := getNextId_not_mem s hw
  have hset := setChild_of_not_mem s (FirebaseService.getNextId s)
    { mkRecordPlain (FirebaseService.getNextId s) d with status := 1 } hfresh
  refine ⟨fun p hp => lt_getNextId s p hp, ?_, ?_, ?_⟩
  · exact getChild_setChild_self s (FirebaseService.getNextId s) _
  · intro p hp
    show FirebaseService.getChild (FirebaseService.setChild s _ _) p.1 = _
    rw [hset]
    exact getChild_append_of_mem s _ p.1 (List.mem_map_of_mem Prod.fst hp)
  · intro hnd
    show (FirebaseService.keys (FirebaseService.setChild s _ _)).Nodup
    rw [hset]
    have : FirebaseService.keys (s ++ [(FirebaseService.getNextId s,
        { mkRecordPlain (FirebaseService.getNextId s) d with status := 1 })])
        = FirebaseService.keys s ++ [FirebaseService.getNextId s] := by
      simp [FirebaseService.keys]
    rw [this]
    simp [List.nodup_append, hnd, hfresh]

/-- Claim C8 witness: on the one-record store the next id is 2, strictly
above the stored id 1, and the create leaves the binding at key 1 intact. -/
theorem C8_next_id_fresh_witness :
    FirebaseService.WellKeyed [(1, johnRecord)]
    ∧ (1, johnRecord).2.id < FirebaseService.getNextId [(1, johnRecord)]
    ∧ FirebaseService.getChild (FirebaseService.createRecord [(1, johnRecord)] sampleData).1 1
      = FirebaseService.getChild [(1, johnRecord)] 1 :=
  ⟨by unfold FirebaseService.WellKeyed; decide,
    (C8_next_id_fresh [(1, johnRecord)] sampleData
      (by unfold FirebaseService.WellKeyed; decide)).1 (1, johnRecord) (by decide),
    (C8_next_id_fresh [(1, johnRecord)] sampleData
      (by unfold FirebaseService.WellKeyed; decide)).2.2.1 (1, johnRecord) (by decide)⟩

/-! ## Claim C5 -/

/-- Claim C5 counterexample: the Neon adapter updateRecord consults no
storage at all; whenever the backend response to the blind PATCH carries no
error field - the REST behaviour when zero rows match - the call succeeds
and returns a record fabricated from the request, even for an id absent
everywhere, instead of failing with NotFound. -/
theorem C5_neon_update_absent_id_succeeds :
    NeonAPIService.updateRecord 999 sampleData { error := none, data := none }
      = Except.ok (mkRecordPlain 999 sampleData) := rfl

/-- Claim C5 (amended): on an absent id the Firebase service fails with
NotFound and the spreadsheet mock throws its not-found error; the Apps
Script backend reports the not-found error and leaves the sheet unchanged,
but the client re-wraps that response into the generic update-failed
message, so what surfaces is a failure without the NotFound label; the
Neon adapter issues a blind PATCH with no existence check and, for every
backend response without an error field, returns a success record
fabricated from the request - never NotFound. -/
theorem C5_update_not_found :
    (∀ (s : FirebaseService.Store) (id : Nat) (p : RecordPatch),
      FirebaseService.getChild s id = none →
      FirebaseService.updateRecord s id p = Except.error (SvcError.notFound id))
    ∧ (∀ (l : List Record) (id : Nat) (d : RecordData),
      GoogleSheetsAPIService.hasId l id = false →
      GoogleSheetsAPIService.updateRecordMock l id d
        = Except.error (SvcError.msg "Record not found"))
    ∧ (∀ (rows : List Record) (id : Nat) (d : RecordData) (nowIso : String),
      GoogleSheetsAPIService.hasId rows id = false →
      (AppsScript.updateRecord rows id d nowIso).2.error = some "Record not found"
      ∧ (AppsScript.updateRecord rows id d nowIso).1 = rows
      ∧ GoogleSheetsAPIService.updateRecordViaScript (AppsScript.updateRecord rows id d nowIso).2
        = Except.error (SvcError.msg "Failed to update record in Google Sheets"))
    ∧ (∀ (id : Nat) (d : RecordData) (resp : NeonAPIService.NeonAPIResponse),
      resp.error = none →
      NeonAPIService.updateRecord id d resp
        = Except.ok (resp.data.getD (mkRecordPlain id d))) := by
  refine ⟨?_, ?_, ?_, ?_⟩
  · intro s id p h
    simp [FirebaseService.updateRecord, h]
  · intro l id d h
    exact updateRecordMock_not_found l id d h
  · intro rows id d nowIso h
    have haux := updateRecordAux_not_found rows id (AppsScript.convertToRow id d nowIso) h
    refine ⟨?_, ?_, ?_⟩ <;>
      simp [AppsScript.updateRecord, haux, GoogleSheetsAPIService.updateRecordViaScript]
  · intro id d resp herr
    cases hd : resp.data with
    | none => simp [NeonAPIService.updateRecord, herr, hd]
    | some r => simp [NeonAPIService.updateRecord, herr, hd]

/-- Claim C5 witness: the four branches at concrete absent ids. -/
theorem C5_update_not_found_witness :
    FirebaseService.getChild ([] : FirebaseService.Store) 7 = none
    ∧ FirebaseService.updateRecord ([] : FirebaseService.Store) 7 {}
      = Except.error (SvcError.notFound 7)
    ∧ GoogleSheetsAPIService.updateRecordMock [] 7 sampleData
      = Except.error (SvcError.msg "Record not found")
    ∧ GoogleSheetsAPIService.hasId [] 9 = false
    ∧ GoogleSheetsAPIService.updateRecordViaScript (AppsScript.updateRecord [] 9 sampleData "").2
      = Except.error (SvcError.msg "Failed to update record in Google Sheets")
    ∧ NeonAPIService.updateRecord 999 sampleData {}
      = Except.ok (mkRecordPlain 999 sampleData) :=
  ⟨rfl, C5_update_not_found.1 [] 7 {} rfl,
    C5_update_not_found.2.1 [] 7 sampleData rfl,
    rfl,
    (C5_update_not_found.2.2.1 [] 9 sampleData "" rfl).2.2,
    C5_update_not_found.2.2.2 999 sampleData {} rfl⟩

/-! ## Claim C6 -/

/-- Claim C6 counterexample: Firebase create with a supplied status of 0
persists and returns status 1 - the created record read back through
getRecordById differs from the supplied data on the status field. -/
theorem C6_firebase_create_overrides_status :
    sampleData.status = 0
    ∧ (FirebaseService.createRecord [] sampleData).2.status = 1
    ∧ FirebaseService.getRecordById (FirebaseService.createRecord [] sampleData).1
        (FirebaseService.createRecord [] sampleData).2.id
      = some (FirebaseService.createRecord [] sampleData).2
    ∧ ¬ (FirebaseService.createRecord [] sampleData).2.status = sampleData.status := by
  refine ⟨rfl, rfl, ?_, by decide⟩
  exact getChild_setChild_self [] 1 _

/-- Claim C6 (amended): create followed by getById returns the stored
record, which agrees with the supplied data on every field except status:
Firebase forces status to 1, while the spreadsheet mock keeps every
supplied field including status. -/
theorem C6_create_then_get (s : FirebaseService.Store) (d : RecordData)
    (l : List Record) (newId : Nat)
    (hfresh : GoogleSheetsAPIService.hasId l newId = false) :
    (FirebaseService.getRecordById (FirebaseService.createRecord s d).1
        (FirebaseService.createRecord s d).2.id = some (FirebaseService.createRecord s d).2
      ∧ (FirebaseService.createRecord s d).2.name = d.name
      ∧ (FirebaseService.createRecord s d).2.email = d.email
      ∧ (FirebaseService.createRecord s d).2.phone = d.phone
      ∧ (FirebaseService.createRecord s d).2.department = d.department
      ∧ (FirebaseService.createRecord s d).2.position = d.position
      ∧ (FirebaseService.createRecord s d).2.profile_image = d.profile_image
      ∧ (FirebaseService.createRecord s d).2.created_at = d.created_at
      ∧ (FirebaseService.createRecord s d).2.updated_at = d.updated_at
      ∧ (FirebaseService.createRecord s d).2.status = 1)
    ∧ (GoogleSheetsAPIService.getRecordMock
        (GoogleSheetsAPIService.createRecordMock l newId d).1 newId
      = Except.ok (GoogleSheetsAPIService.createRecordMock l newId d).2
      ∧ (GoogleSheetsAPIService.createRecordMock l newId d).2 = mkRecordPlain newId d) := by
  constructor
  · exact ⟨getChild_setChild_self s (FirebaseService.getNextId s) _,
      rfl, rfl, rfl, rfl, rfl, rfl, rfl, rfl, rfl⟩
  · exact ⟨getRecordMock_append l newId (mkRecordPlain newId d) hfresh rfl, rfl⟩

/-- Claim C6 witness: the mock create at fresh id 42 reads back exactly
the supplied fields. -/
theorem C6_create_then_get_witness :
    GoogleSheetsAPIService.hasId [] 42 = false
    ∧ GoogleSheetsAPIService.getRecordMock
        (GoogleSheetsAPIService.createRecordMock [] 42 sampleData).1 42
      = Except.ok (GoogleSheetsAPIService.createRecordMock [] 42 sampleData).2 :=
  ⟨rfl, (C6_create_then_get [] sampleData [] 42 rfl).2.1⟩

/-! ## Claim C7 -/

/-- Claim C7 counterexample: on a create that supplies status 0, three of
the four backends - Firebase, Neon and Appwrite - store or send status 1,
so it is false that exactly one backend forces status 1 on create. -/
theorem C7_three_backends_force_status_one :
    statusesOnCreateZero.countP (fun v => v == 1) = 3
    ∧ ¬ statusesOnCreateZero.countP (fun v => v == 1) = 1 := by
  decide

/-- Claim C7 (amended): for every create payload, Firebase, Neon and
Appwrite all force status 1 on create, while the Apps Script spreadsheet
backend stores the supplied status, defaulting a falsy value to 0. -/
theorem C7_status_defaults (s : FirebaseService.Store) (rows : List Record) (d : RecordData) :
    (FirebaseService.createRecord s d).2.status = 1
    ∧ (NeonAPIService.createBody d).status = 1
    ∧ (AppwriteService.createRecord rows d).2.status = 1
    ∧ AppsScript.storedStatus d.status = d.status := by
  refine ⟨rfl, rfl, rfl, ?_⟩
  by_cases h : d.status = 0 <;> simp [AppsScript.storedStatus, jsOrNat, h]

/-! ## Claim C9 -/

/-- Claim C9: submitting a search with a non-empty trimmed query while the
displayed record list is empty performs no search: searchEmployees
dispatches a full reload of the active adapter instead. -/
theorem C9_empty_list_search_reloads (name : String) (records : List Record)
    (_hname : jsTrim name ≠ "") (hrec : records = []) :
    Coordinator.searchEmployees name records = Coordinator.SearchDispatch.loadAllRecords := by
  subst hrec
  simp [Coordinator.searchEmployees]

/-- Claim C9 witness: the query Jane on an empty list reloads. -/
theorem C9_empty_list_search_witness :
    jsTrim "Jane" ≠ ""
    ∧ Coordinator.searchEmployees "Jane" [] = Coordinator.SearchDispatch.loadAllRecords :=
  ⟨by decide, C9_empty_list_search_reloads "Jane" [] (by decide) rfl⟩

/-! ## Claim C10 -/

/-- Claim C10: in mock mode getAllRecords preserves the mock store and
returns a fresh array reference holding a copy of it; mutating the
returned array in any way leaves the store entry untouched, so a later
read of the store yields the original records. -/
theorem C10_mock_getAll_fresh_copy (s : GoogleSheetsAPIService.MockState)
    (f : List Record → List Record) (h : s.mockRef < s.arrays.length) :
    (GoogleSheetsAPIService.getAllRecordsMock s).1.mockRef = s.mockRef
    ∧ (GoogleSheetsAPIService.getAllRecordsMock s).2 ≠ s.mockRef
    ∧ GoogleSheetsAPIService.heapGet (GoogleSheetsAPIService.getAllRecordsMock s).1.arrays
        (GoogleSheetsAPIService.getAllRecordsMock s).2
      = GoogleSheetsAPIService.heapGet s.arrays s.mockRef
    ∧ GoogleSheetsAPIService.heapGet (GoogleSheetsAPIService.getAllRecordsMock s).1.arrays
        s.mockRef
      = GoogleSheetsAPIService.heapGet s.arrays s.mockRef
    ∧ GoogleSheetsAPIService.heapGet
        (GoogleSheetsAPIService.mutateArray (GoogleSheetsAPIService.getAllRecordsMock s).1
          (GoogleSheetsAPIService.getAllRecordsMock s).2 f).arrays s.mockRef
      = GoogleSheetsAPIService.heapGet s.arrays s.mockRef := by
  refine ⟨rfl, ?_, ?_, ?_, ?_⟩
  · show s.arrays.length ≠ s.mockRef
    omega
  · show GoogleSheetsAPIService.heapGet
        (s.arrays ++ [GoogleSheetsAPIService.heapGet s.arrays s.mockRef]) s.arrays.length = _
    exact getD_append_length [] s.arrays _
  · exact getD_append_lt [] s.arrays _ s.mockRef h
  · show (((s.arrays ++ [GoogleSheetsAPIService.heapGet s.arrays s.mockRef]).set
        s.arrays.length _).getD s.mockRef []) = _
    rw [getD_set_ne [] _ s.arrays.length _ s.mockRef (by omega)]
    exact getD_append_lt [] s.arrays _ s.mockRef h

/-- Claim C10 witness: emptying the array returned by the first mock read
does not change what the second mock read returns. -/
theorem C10_mock_getAll_witness :
    GoogleSheetsAPIService.mkMockService.mockRef
      < GoogleSheetsAPIService.mkMockService.arrays.length
    ∧ GoogleSheetsAPIService.heapGet
        (GoogleSheetsAPIService.mutateArray
          (GoogleSheetsAPIService.getAllRecordsMock GoogleSheetsAPIService.mkMockService).1
          (GoogleSheetsAPIService.getAllRecordsMock GoogleSheetsAPIService.mkMockService).2
          (fun _ => [])).arrays
        GoogleSheetsAPIService.mkMockService.mockRef
      = GoogleSheetsAPIService.heapGet GoogleSheetsAPIService.mkMockService.arrays
          GoogleSheetsAPIService.mkMockService.mockRef :=
  ⟨by decide,
    (C10_mock_getAll_fresh_copy GoogleSheetsAPIService.mkMockService
      (fun _ => []) (by decide)).2.2.2.2⟩

/-! ## Claim C4 -/

theorem jsSubstring_wrap (l : List Char) :
    jsSubstring (String.mk ('%' :: (l ++ ['%']))) 1 ((l.length + 2) - 1) = String.mk l := by
  have hN : (String.mk ('%' :: (l ++ ['%']))).data.length = l.length + 2 := by simp
  simp only [jsSubstring]
  rw [hN]
  have e1 : min (min 1 (l.length + 2)) (min ((l.length + 2) - 1) (l.length + 2)) = 1 := by
    omega
  have e2 : max (min 1 (l.length + 2)) (min ((l.length + 2) - 1) (l.length + 2))
      = l.length + 1 := by omega
  rw [e1, e2]
  have hdrop : (String.mk ('%' :: (l ++ ['%']))).data.drop 1 = l ++ ['%'] := rfl
  rw [hdrop]
  have htake : (l ++ ['%']).take (l.length + 1 - 1) = l := by
    have : l.length + 1 - 1 = l.length := rfl
    rw [this]
    exact List.take_left l ['%']
  rw [htake]

theorem parse_wrapped (l : List Char) :
    AppsScript.parseSearchValue (String.mk ('%' :: (l ++ ['%'])))
      = (AppsScript.MatchKind.containsKind, String.mk l) := by
  have hN : (String.mk ('%' :: (l ++ ['%']))).data.length = l.length + 2 := by simp
  have h0 : jsCharAt (String.mk ('%' :: (l ++ ['%']))) 0 = "%" := rfl
  have h1 : jsCharAt (String.mk ('%' :: (l ++ ['%']))) ((l.length + 2) - 1) = "%" := by
    have hdrop2 : (('%' :: (l ++ ['%'])) : List Char).drop ((l.length + 2) - 1) = ['%'] := by
      have h2 : List.drop l.length (l ++ ['%']) = ['%'] := List.drop_left l ['%']
      exact h2
    simp only [jsCharAt]
    rw [hdrop2]
  simp only [AppsScript.parseSearchValue]
  rw [hN, if_pos ⟨h0, h1⟩, jsSubstring_wrap]

theorem jsLower_containsPattern (q : String) :
    jsLower (AppsScript.containsPattern q)
      = String.mk ('%' :: (q.data.map Char.toLower ++ ['%'])) := by
  simp [jsLower, AppsScript.containsPattern, List.map_append,
    show Char.toLower '%' = '%' from by decide]

theorem isMatch_contains (q x : String) :
    AppsScript.isMatch AppsScript.MatchKind.containsKind (jsLower q) (jsLower x)
      = ciContains x q := by
  simp only [AppsScript.isMatch, jsFirstIndexOf, ciContains]
  rw [firstIdx_isSome]
  rfl

theorem isMatch_exact (q x : String) :
    AppsScript.isMatch AppsScript.MatchKind.exactKind (jsLower q) (jsLower x)
      = ciEquals x q := by
  simp only [AppsScript.isMatch, ciEquals]
  exact decide_eq_decide.mpr (jsLower_eq_iff x q)

theorem parse_plain (sv : String)
    (h0 : jsCharAt sv 0 ≠ "%")
    (h1 : jsCharAt sv (sv.data.length - 1) ≠ "%") :
    AppsScript.parseSearchValue sv = (AppsScript.MatchKind.exactKind, sv) := by
  simp only [AppsScript.parseSearchValue]
  rw [if_neg (fun hc => h0 hc.1)]
  rw [if_neg h0]
  rw [if_neg h1]

theorem sheets_contains_eq (rows : List Record) (f : Record → String) (q : String) :
    AppsScript.searchRecordsByQuery rows f (AppsScript.containsPattern q)
      = specSearchContains rows f q := by
  unfold AppsScript.searchRecordsByQuery specSearchContains
  rw [jsLower_containsPattern, parse_wrapped (q.data.map Char.toLower)]
  apply List.filter_congr
  intro r _
  exact isMatch_contains q (f r)

theorem sheets_exact_eq (rows : List Record) (f : Record → String) (q : String)
    (h0 : jsCharAt (jsLower q) 0 ≠ "%")
    (h1 : jsCharAt (jsLower q) ((jsLower q).data.length - 1) ≠ "%") :
    AppsScript.searchRecordsByQuery rows f q = specSearchExact rows f q := by
  unfold AppsScript.searchRecordsByQuery specSearchExact
  rw [parse_plain (jsLower q) h0 h1]
  apply List.filter_congr
  intro r _
  exact isMatch_exact q (f r)

theorem firebase_contains_eq (s : FirebaseService.Store) (f : Record → String) (v : String) :
    FirebaseService.searchRecords s f v QUERY_TYPE.CONTAINS
      = specSearchContains (FirebaseService.getAllRecords s) f v := by
  simp only [FirebaseService.searchRecords, specSearchContains]
  apply List.filter_congr
  intro r _
  rw [jsOrStr_empty]
  simp only [jsIncludes, jsFirstIndexOf]
  rw [firstIdx_isSome]
  rfl

/-- Claim C4 counterexample: the Firebase exact search uses the native
equalTo query, which is case sensitive: the query john does not return the
stored record named John although it matches case-insensitively. -/
theorem C4_firebase_exact_case_sensitive :
    FirebaseService.searchRecords [(1, johnRecord)] nameField "john" QUERY_TYPE.EXACT = []
    ∧ specSearchExact (FirebaseService.getAllRecords [(1, johnRecord)]) nameField "john"
      = [johnRecord] := by
  decide

/-- Claim C4 (amended): search with contains mode returns exactly the
records whose field case-insensitively contains the query, in both the
spreadsheet backend and the Firebase adapter; exact mode is
case-insensitive in the spreadsheet backend (for a query not wrapped in
percent signs) but case sensitive in the Firebase adapter. -/
theorem C4_search_semantics (rows : List Record) (s : FirebaseService.Store)
    (field : Record → String) (q : String)
    (h0 : jsCharAt (jsLower q) 0 ≠ "%")
    (h1 : jsCharAt (jsLower q) ((jsLower q).data.length - 1) ≠ "%") :
    AppsScript.searchRecordsByQuery rows field (AppsScript.containsPattern q)
      = specSearchContains rows field q
    ∧ AppsScript.searchRecordsByQuery rows field q = specSearchExact rows field q
    ∧ FirebaseService.searchRecords s field q QUERY_TYPE.CONTAINS
      = specSearchContains (FirebaseService.getAllRecords s) field q :=
  ⟨sheets_contains_eq rows field q, sheets_exact_eq rows field q h0 h1,
    firebase_contains_eq s field q⟩

/-- Claim C4 witness: the three amended equalities at the query John over
a one-record store. -/
theorem C4_search_semantics_witness :
    jsCharAt (jsLower "John") 0 ≠ "%"
    ∧ AppsScript.searchRecordsByQuery [johnRecord] nameField
        (AppsScript.containsPattern "John") = specSearchContains [johnRecord] nameField "John"
    ∧ AppsScript.searchRecordsByQuery [johnRecord] nameField "John"
      = specSearchExact [johnRecord] nameField "John"
    ∧ FirebaseService.searchRecords [(1, johnRecord)] nameField "John" QUERY_TYPE.CONTAINS
      = specSearchContains (FirebaseService.getAllRecords [(1, johnRecord)]) nameField "John" :=
  ⟨by decide,
    (C4_search_semantics [johnRecord] [(1, johnRecord)] nameField "John"
      (by decide) (by decide)).1,
    (C4_search_semantics [johnRecord] [(1, johnRecord)] nameField "John"
      (by decide) (by decide)).2.1,
    (C4_search_semantics [johnRecord] [(1, johnRecord)] nameField "John"
      (by decide) (by decide)).2.2⟩

/-! ## Claim C2 -/

/-- Claim C2 counterexample: with a valid cached token, a 401 on the call
triggers one refresh and one retry; when the retry is also rejected with
401, the outcome is the raw retry rejection, which the public CRUD method
wraps as the generic fetch failure - not the AuthFailed error of the token
machinery. -/
theorem C2_as_stated_false :
    (NeonAPIService.makeAuthenticatedRequest (α := List Record)
        { currentAccessToken := some "tokA", tokenExpiresAt := 1000000000 } 0
        none NeonAPIService.ReqResult.status401
        (some { access_token := some "tokB", expires_at_millis := some 3600 })
        NeonAPIService.ReqResult.status401).outcome
      = NeonAPIService.CallOutcome.retryRejected NeonAPIService.ReqResult.status401
    ∧ NeonAPIService.isAuthFailed
        (NeonAPIService.makeAuthenticatedRequest (α := List Record)
          { currentAccessToken := some "tokA", tokenExpiresAt := 1000000000 } 0
          none NeonAPIService.ReqResult.status401
          (some { access_token := some "tokB", expires_at_millis := some 3600 })
          NeonAPIService.ReqResult.status401).outcome = false
    ∧ NeonAPIService.getAllRecordsSurface
        (NeonAPIService.makeAuthenticatedRequest
          { currentAccessToken := some "tokA", tokenExpiresAt := 1000000000 } 0
          none NeonAPIService.ReqResult.status401
          (some { access_token := some "tokB", expires_at_millis := some 3600 })
          NeonAPIService.ReqResult.status401)
      = NeonAPIService.Surface.failMsg "Failed to fetch employees from NEON Database" := by
  refine ⟨rfl, rfl, rfl⟩

/-- Claim C2 (amended): whenever the initial token acquisition succeeds and
the call is answered with 401, the adapter performs exactly one token
refresh network call and retries the request exactly once; the retry
outcome is final - a success returns its data, any rejection (including a
second 401) propagates raw and surfaces through the CRUD wrapper as the
generic failure message, never as AuthFailed; AuthFailed arises exactly
when the refresh itself fails, and then no retry happens. -/
theorem C2_single_refresh_single_retry (st : NeonAPIService.AuthState) (now : Nat)
    (auth1 : NeonAPIService.AuthResult) (tok0 : String)
    (resp : NeonAPIService.NeonAuthResponse) (tok : String)
    (att2 : NeonAPIService.ReqResult (List Record))
    (hcache : (NeonAPIService.getAccessToken st now auth1).1 = Except.ok tok0)
    (hresp : resp.access_token = some tok) :
    (NeonAPIService.makeAuthenticatedRequest st now auth1
        NeonAPIService.ReqResult.status401 (some resp) att2).requestAttempts = 2
    ∧ (NeonAPIService.makeAuthenticatedRequest st now auth1
        NeonAPIService.ReqResult.status401 (some resp) att2).authNetworkCalls
      = (NeonAPIService.getAccessToken st now auth1).2.2 + 1
    ∧ (NeonAPIService.makeAuthenticatedRequest st now auth1
        NeonAPIService.ReqResult.status401 (some resp) att2).outcome
      = (match att2 with
          | NeonAPIService.ReqResult.ok d => NeonAPIService.CallOutcome.ok d
          | r => NeonAPIService.CallOutcome.retryRejected r)
    ∧ NeonAPIService.isAuthFailed
        (NeonAPIService.makeAuthenticatedRequest st now auth1
          NeonAPIService.ReqResult.status401 (some resp) att2).outcome = false
    ∧ (att2 = NeonAPIService.ReqResult.status401 →
        NeonAPIService.getAllRecordsSurface
          (NeonAPIService.makeAuthenticatedRequest st now auth1
            NeonAPIService.ReqResult.status401 (some resp) att2)
          = NeonAPIService.Surface.failMsg "Failed to fetch employees from NEON Database")
    ∧ (NeonAPIService.makeAuthenticatedRequest st now auth1
        NeonAPIService.ReqResult.status401 none att2).outcome
      = NeonAPIService.CallOutcome.authFailed "Failed to authenticate with NEON API"
    ∧ (NeonAPIService.makeAuthenticatedRequest st now auth1
        NeonAPIService.ReqResult.status401 none att2).requestAttempts = 1 := by
  rcases hG : NeonAPIService.getAccessToken st now auth1 with ⟨e, st1, a1⟩
  rw [hG] at hcache
  have he : e = Except.ok tok0 := hcache
  subst he
  simp only [NeonAPIService.makeAuthenticatedRequest, hG]
  cases att2 <;>
    simp [NeonAPIService.getAccessToken, NeonAPIService.getFreshToken, hresp,
      NeonAPIService.isAuthFailed, NeonAPIService.getAllRecordsSurface]

/-- Claim C2 witness: the amended behaviour at a concrete cached token and
a second 401. -/
theorem C2_single_refresh_witness :
    (NeonAPIService.getAccessToken
        { currentAccessToken := some "tokA", tokenExpiresAt := 1000000000 } 0 none).1
      = Except.ok "tokA"
    ∧ (NeonAPIService.makeAuthenticatedRequest
        { currentAccessToken := some "tokA", tokenExpiresAt := 1000000000 } 0 none
        NeonAPIService.ReqResult.status401
        (some { access_token := some "tokB", expires_at_millis := some 3600 })
        (NeonAPIService.ReqResult.status401 : NeonAPIService.ReqResult (List Record))).requestAttempts
      = 2
    ∧ (NeonAPIService.makeAuthenticatedRequest
        { currentAccessToken := some "tokA", tokenExpiresAt := 1000000000 } 0 none
        NeonAPIService.ReqResult.status401
        (some { access_token := some "tokB", expires_at_millis := some 3600 })
        (NeonAPIService.ReqResult.status401 : NeonAPIService.ReqResult (List Record))).authNetworkCalls
      = (NeonAPIService.getAccessToken
          { currentAccessToken := some "tokA", tokenExpiresAt := 1000000000 } 0 none).2.2 + 1 :=
  ⟨rfl,
    (C2_single_refresh_single_retry
      { currentAccessToken := some "tokA", tokenExpiresAt := 1000000000 } 0 none "tokA"
      { access_token := some "tokB", expires_at_millis := some 3600 } "tokB"
      NeonAPIService.ReqResult.status401 rfl rfl).1,
    (C2_single_refresh_single_retry
      { currentAccessToken := some "tokA", tokenExpiresAt := 1000000000 } 0 none "tokA"
      { access_token := some "tokB", expires_at_millis := some 3600 } "tokB"
      NeonAPIService.ReqResult.status401 rfl rfl).2.1⟩

/-! ## Claim C1 -/

/-- Claim C1 counterexample: two overlapping Firebase list requests.
The Firebase list call carries no cancel token, so cancelling the token on
the second load does not detach the first request: both completions run
setRecords - two state updates - and the superseded first request, arriving
last, overwrites the record list. -/
theorem C1_as_stated_false :
    (Coordinator.run [Coordinator.Event.load Coordinator.ApiType.FIREBASE,
        Coordinator.Event.load Coordinator.ApiType.FIREBASE,
        Coordinator.Event.complete { reqId := 1, token := none },
        Coordinator.Event.complete { reqId := 0, token := none }]).updateCount = 2
    ∧ (Coordinator.run [Coordinator.Event.load Coordinator.ApiType.FIREBASE,
        Coordinator.Event.load Coordinator.ApiType.FIREBASE,
        Coordinator.Event.complete { reqId := 1, token := none },
        Coordinator.Event.complete { reqId := 0, token := none }]).recordsFrom = some 0 := by
  decide

/-- Claim C1 (amended): when the outstanding list request was issued
through an adapter whose list call carries the axios cancel token (Google
Sheets or Neon), issuing a new list request or switching the adapter
cancels it: its rejection is swallowed (no error surfaces) and, whichever
order the two results arrive in, exactly one state update happens and it
comes from the newer request. The Firebase list call carries no token, so
this guarantee does not cover it. -/
theorem C1_last_request_wins_with_token (a b : Coordinator.ApiType)
    (h : Coordinator.usesCancelToken a = true) :
    ((Coordinator.run [Coordinator.Event.load a, Coordinator.Event.load b,
        Coordinator.Event.complete { reqId := 0, token := some 0 },
        Coordinator.Event.complete { reqId := 1, token := if Coordinator.usesCancelToken b then some 1 else none }]).updateCount = 1
      ∧ (Coordinator.run [Coordinator.Event.load a, Coordinator.Event.load b,
          Coordinator.Event.complete { reqId := 0, token := some 0 },
          Coordinator.Event.complete { reqId := 1, token := if Coordinator.usesCancelToken b then some 1 else none }]).recordsFrom
        = some 1
      ∧ (Coordinator.run [Coordinator.Event.load a, Coordinator.Event.load b,
          Coordinator.Event.complete { reqId := 0, token := some 0 },
          Coordinator.Event.complete { reqId := 1, token := if Coordinator.usesCancelToken b then some 1 else none }]).errorCount = 0)
    ∧ ((Coordinator.run [Coordinator.Event.load a, Coordinator.Event.load b,
        Coordinator.Event.complete { reqId := 1, token := if Coordinator.usesCancelToken b then some 1 else none },
        Coordinator.Event.complete { reqId := 0, token := some 0 }]).updateCount = 1
      ∧ (Coordinator.run [Coordinator.Event.load a, Coordinator.Event.load b,
          Coordinator.Event.complete { reqId := 1, token := if Coordinator.usesCancelToken b then some 1 else none },
          Coordinator.Event.complete { reqId := 0, token := some 0 }]).recordsFrom = some 1
      ∧ (Coordinator.run [Coordinator.Event.load a, Coordinator.Event.load b,
          Coordinator.Event.complete { reqId := 1, token := if Coordinator.usesCancelToken b then some 1 else none },
          Coordinator.Event.complete { reqId := 0, token := some 0 }]).errorCount = 0)
    ∧ (b ≠ Coordinator.ApiType.GOOGLE_SHEETS →
      ((Coordinator.run [Coordinator.Event.load a, Coordinator.Event.switchApi b,
          Coordinator.Event.complete { reqId := 0, token := some 0 },
          Coordinator.Event.complete { reqId := 1, token := if Coordinator.usesCancelToken b then some 1 else none }]).updateCount = 1
        ∧ (Coordinator.run [Coordinator.Event.load a, Coordinator.Event.switchApi b,
            Coordinator.Event.complete { reqId := 0, token := some 0 },
            Coordinator.Event.complete { reqId := 1, token := if Coordinator.usesCancelToken b then some 1 else none }]).recordsFrom
          = some 1
        ∧ (Coordinator.run [Coordinator.Event.load a, Coordinator.Event.switchApi b,
            Coordinator.Event.complete { reqId := 1, token := if Coordinator.usesCancelToken b then some 1 else none },
            Coordinator.Event.complete { reqId := 0, token := some 0 }]).updateCount = 1
        ∧ (Coordinator.run [Coordinator.Event.load a, Coordinator.Event.switchApi b,
            Coordinator.Event.complete { reqId := 1, token := if Coordinator.usesCancelToken b then some 1 else none },
            Coordinator.Event.complete { reqId := 0, token := some 0 }]).recordsFrom
          = some 1)) := by
  cases a with
  | FIREBASE => exact absurd h (by decide)
  | GOOGLE_SHEETS => cases b <;> decide
  | NEON => cases b <;> decide

/-- Claim C1 witness: a Neon list request superseded by a Firebase load or
by an adapter switch yields exactly one update, from the newer request. -/
theorem C1_last_request_wins_witness :
    Coordinator.usesCancelToken Coordinator.ApiType.NEON = true
    ∧ (Coordinator.run [Coordinator.Event.load Coordinator.ApiType.NEON,
        Coordinator.Event.load Coordinator.ApiType.FIREBASE,
        Coordinator.Event.complete { reqId := 0, token := some 0 },
        Coordinator.Event.complete { reqId := 1, token := none }]).updateCount = 1
    ∧ (Coordinator.run [Coordinator.Event.load Coordinator.ApiType.NEON,
        Coordinator.Event.switchApi Coordinator.ApiType.FIREBASE,
        Coordinator.Event.complete { reqId := 0, token := some 0 },
        Coordinator.Event.complete { reqId := 1, token := none }]).recordsFrom = some 1 :=
  ⟨by decide,
    (C1_last_request_wins_with_token Coordinator.ApiType.NEON Coordinator.ApiType.FIREBASE
      (by decide)).1.1,
    ((C1_last_request_wins_with_token Coordinator.ApiType.NEON Coordinator.ApiType.FIREBASE
      (by decide)).2.2 (by decide)).2.1⟩
